import Mathlib

/-!
Shallow embedding of `imagedownloader/downloader.py` (umaxfun/imagedownloader).

The repository's core is `ImageDownloader`: it hashes a URL to a storage path,
fetches the image if the path is missing (or a force flag is set), normalizes
it with PIL (`convert_image`), persists it, produces thumbnails, and returns an
MD5 checksum of the stored file.  The module-level `download` function runs a
batch over a thread pool and returns a url -> checksum mapping.

External collaborators (the network, the PIL decoder/encoder, the MD5 digest
from `utils.md5sum`) are modelled as an explicit environment `Env` of pure
functions; the filesystem is an explicit association list; the pacing sleep
and the fetch are modelled as counters in the pipeline state.  Machine
integers are `Nat` with explicit `% 2 ^ 32` where the SHA-1 rounds overflow.
-/

namespace ImageDL

/-- Raw bytes (Python `bytes`), each entry `< 256` where it matters. -/
abbrev Bytes := List Nat

/-- Exceptions raised by the pipeline's collaborators (§7 of the spec). -/
inductive PyErr where
  | transportError (msg : String)
  | decodeError (msg : String)
  | fileNotFound (msg : String)
  deriving DecidableEq, Repr

/-! ## SHA-1 (`hashlib.sha1`) over the identifier's UTF-8 bytes

`file_path`/`thumb_path` call `hashlib.sha1(to_bytes(url)).hexdigest()`.
`hashlib.sha1` is the standard SHA-1; we embed it over `Nat` with explicit
`% 2 ^ 32` wraparound. -/

/-- 32-bit left rotate on a word `< 2 ^ 32`. -/
def rotl32 (n b : Nat) : Nat :=
  ((n <<< b) ||| (n >>> (32 - b))) % 2 ^ 32

/-- Pad the message per SHA-1/MD5: append `0x80`, zero bytes up to 56 mod 64,
then the 64-bit big-endian bit length. -/
def sha1pad (msg : Bytes) : Bytes :=
  let len := msg.length
  let bitLen := 8 * len
  let zeros := (55 + 64 - len % 64) % 64
  msg ++ [0x80] ++ List.replicate zeros 0 ++
    (List.range 8).map (fun i => bitLen / 2 ^ (8 * (7 - i)) % 256)

/-- Big-endian 32-bit word `i` of a byte list (missing bytes read as 0). -/
def beWord (bytes : Bytes) (i : Nat) : Nat :=
  bytes.getD (4 * i) 0 * 2 ^ 24 + bytes.getD (4 * i + 1) 0 * 2 ^ 16 +
    bytes.getD (4 * i + 2) 0 * 2 ^ 8 + bytes.getD (4 * i + 3) 0

/-- Extend the 16 chunk words to the 80 SHA-1 schedule words. -/
def sha1extend (w16 : List Nat) : List Nat :=
  (List.range 64).foldl
    (fun w _ =>
      let n := w.length
      w ++ [rotl32 ((w.getD (n - 3) 0 ^^^ w.getD (n - 8) 0 ^^^
        w.getD (n - 14) 0 ^^^ w.getD (n - 16) 0) % 2 ^ 32) 1])
    w16

/-- One SHA-1 round: state `(a,b,c,d,e)`, round index `i`, schedule word `w`. -/
def sha1round (st : Nat × Nat × Nat × Nat × Nat) (iw : Nat × Nat) :
    Nat × Nat × Nat × Nat × Nat :=
  let (a, b, c, d, e) := st
  let (i, w) := iw
  let f :=
    if i < 20 then (b &&& c) ||| ((2 ^ 32 - 1 - b) &&& d)
    else if i < 40 then b ^^^ c ^^^ d
    else if i < 60 then (b &&& c) ||| (b &&& d) ||| (c &&& d)
    else b ^^^ c ^^^ d
  let k :=
    if i < 20 then 0x5A827999
    else if i < 40 then 0x6ED9EBA1
    else if i < 60 then 0x8F1BBCDC
    else 0xCA62C1D6
  let temp := (rotl32 a 5 + f + e + k + w) % 2 ^ 32
  (temp, a, rotl32 b 30, c, d)

/-- Process one 64-byte chunk (given by its word function) into the running
hash state. -/
def sha1chunk (h : Nat × Nat × Nat × Nat × Nat) (w16 : List Nat) :
    Nat × Nat × Nat × Nat × Nat :=
  let ws := sha1extend w16
  let (h0, h1, h2, h3, h4) := h
  let (a, b, c, d, e) :=
    ((List.range 80).zip ws).foldl sha1round (h0, h1, h2, h3, h4)
  ((h0 + a) % 2 ^ 32, (h1 + b) % 2 ^ 32, (h2 + c) % 2 ^ 32,
    (h3 + d) % 2 ^ 32, (h4 + e) % 2 ^ 32)

/-- SHA-1 of a byte list, as the 160-bit digest value. -/
def sha1 (msg : Bytes) : Nat :=
  let padded := sha1pad msg
  let nChunks := padded.length / 64
  let (h0, h1, h2, h3, h4) :=
    (List.range nChunks).foldl
      (fun h c => sha1chunk h ((List.range 16).map (fun j => beWord padded (16 * c + j))))
      (0x67452301, 0xEFCDAB89, 0x98BADCFE, 0x10325476, 0xC3D2E1F0)
  h0 * 2 ^ 128 + h1 * 2 ^ 96 + h2 * 2 ^ 64 + h3 * 2 ^ 32 + h4

/-- Lower-case hex digit. -/
def hexDigit (n : Nat) : Char :=
  if n < 10 then Char.ofNat (48 + n) else Char.ofNat (87 + n)

/-- Fixed-width lower-case hex rendering (zero-padded to `len` digits),
as `"%08x"`-style formatting does. -/
def toHexFixed (n len : Nat) : String :=
  String.mk ((List.range len).map (fun i => hexDigit (n / 16 ^ (len - 1 - i) % 16)))

/-- `hashlib.sha1(b).hexdigest()`: 40 lower-case hex characters (160 bits). -/
def sha1hex (msg : Bytes) : String :=
  toHexFixed (sha1 msg) 40

/-- Modelled from the spec: `utils.to_bytes` (imported by `downloader.py` but
its source is not in the repository snapshot) encodes the identifier string to
its UTF-8 bytes ("a 160-bit content digest over UTF-8 bytes" §4.1). -/
def to_bytes (s : String) : Bytes :=
  s.toUTF8.toList.map (fun b => b.toNat)

/-! ## Paths

Python `Path(a, b, c)` is modelled as the list of its components. -/

abbrev FilePath := List String

/-- `file_path` (downloader.py line 222): hash the url to the full-image
path `store_path/full/<sha1hex(url)>.jpg`. -/
def file_path (store_path : String) (url : String) : FilePath :=
  let image_guid := sha1hex (to_bytes url)
  [store_path, "full", image_guid ++ ".jpg"]

/-- `thumb_path` (downloader.py line 228): hash the url to the thumbnail
path `store_path/thumbs/<thumb_id>/<sha1hex(url)>.jpg`. -/
def thumb_path (store_path : String) (url : String) (thumb_id : String) : FilePath :=
  let thumb_guid := sha1hex (to_bytes url)
  [store_path, "thumbs", thumb_id, thumb_guid ++ ".jpg"]

/-! ## PIL images and `convert_image`

A decoded PIL image is modelled by its `format` (e.g. `some "PNG"`; `none`
for images created in memory), its `mode` string (`"RGB"`, `"RGBA"`, `"P"`,
`"L"`, ...), its dimensions, and a pixel map giving resolved RGBA channel
values (for modes without alpha the alpha component is 255). -/

structure Img where
  format : Option String
  mode : String
  width : Nat
  height : Nat
  px : Nat → Nat → Nat × Nat × Nat × Nat

/-- `background.paste(img, img)` with a white RGBA background, then
`.convert('RGB')`: per-channel alpha blend against white.  PIL's C code does
the division by 255 with fixed-point rounding; we use the exact blend, which
agrees at the extremes (alpha 0 gives white, alpha 255 gives the source). -/
def blendWhite (c a : Nat) : Nat :=
  (c * a + 255 * (255 - a)) / 255

/-- Composite the image over an opaque white background of the same size and
convert to RGB (downloader.py lines 203-205 and 208-210). -/
def pasteOverWhite (img : Img) : Img :=
  { format := none, mode := "RGB", width := img.width, height := img.height,
    px := fun x y =>
      let (r, g, b, a) := img.px x y
      (blendWhite r a, blendWhite g a, blendWhite b a, 255) }

/-- `img.convert('RGB')` without compositing: keep the colour channels, drop
alpha (set to 255). -/
def convertRGB (img : Img) : Img :=
  { format := none, mode := "RGB", width := img.width, height := img.height,
    px := fun x y =>
      let (r, g, b, _) := img.px x y
      (r, g, b, 255) }

/-- `img.convert('RGBA')` on a palette image: pixels are already resolved
RGBA values in this model, so only the mode changes. -/
def convertRGBA (img : Img) : Img :=
  { img with format := none, mode := "RGBA" }

/-- The size computed by PIL's `Image.thumbnail(size)` (fit inside the
bounding box, floor-scaled, each dimension clamped to at least 1, never
resized up):

    x, y = self.size
    if x > size[0]: y = int(max(y * size[0] / x, 1)); x = size[0]
    if y > size[1]: x = int(max(x * size[1] / y, 1)); y = size[1]

Float division followed by `int` truncation is modelled as `Nat` floor
division. -/
def thumbnailSize (w h tw th : Nat) : Nat × Nat :=
  let p := if tw < w then (tw, max (h * tw / w) 1) else (w, h)
  if th < p.2 then (max (p.1 * th / p.2) 1, th) else p

/-- `img.thumbnail(size, Image.ANTIALIAS)`: resize in place to
`thumbnailSize`; a no-op when the size is unchanged.  The ANTIALIAS
resampling kernel is external to the repository; resampled pixels are
modelled by coordinate scaling (the claims under verification only concern
dimensions, modes, and which source image the bytes derive from). -/
def thumbnail (img : Img) (tw th : Nat) : Img :=
  let (x, y) := thumbnailSize img.width img.height tw th
  if x = img.width ∧ y = img.height then img
  else
    { img with
      width := x
      height := y
      px := fun i j => img.px (i * img.width / max x 1) (j * img.height / max y 1) }

/-- The environment of external collaborators: the network transport
(`requests.get`, with timeout/proxy/headers absorbed into it), the PIL
decoder (`Image.open`), the PIL JPEG encoder (`img.save(buf, 'JPEG')`), and
the MD5 digest used by `utils.md5sum`. -/
structure Env where
  fetch : String → Except PyErr Bytes
  decode : Bytes → Except PyErr Img
  encodeJPEG : Img → Bytes
  md5 : Bytes → String

/-- `convert_image` (downloader.py lines 186-220): convert to JPEG/RGB and
optionally thumbnail to `size`.  Returns the converted image and the encoded
buffer. -/
def convert_image (env : Env) (img : Img) (size : Option (Nat × Nat)) : Img × Bytes :=
  let img :=
    if img.format = some "PNG" ∧ img.mode = "RGBA" then
      pasteOverWhite img
    else if img.mode = "P" then
      pasteOverWhite (convertRGBA img)
    else if img.mode ≠ "RGB" then
      convertRGB img
    else img
  let img :=
    match size with
    | some (tw, th) => thumbnail img tw th
    | none => img
  (img, env.encodeJPEG img)

/-! ## Filesystem and pipeline state -/

/-- The store filesystem: an association list from paths to file bytes; a
write shadows earlier entries for the same path. -/
abbrev FS := List (FilePath × Bytes)

/-- Bytes at `p`, when the file exists. -/
def FS.read (fs : FS) (p : FilePath) : Option Bytes :=
  match fs.find? (fun e => e.1 = p) with
  | some e => some e.2
  | none => none

/-- `path.exists()`. -/
def FS.pathExists (fs : FS) (p : FilePath) : Bool :=
  (fs.read p).isSome

/-- `_persist_file` (downloader.py line 181): whole-file write of the
buffer's bytes. -/
def FS.write (fs : FS) (p : FilePath) (b : Bytes) : FS :=
  (p, b) :: fs

/-- Pipeline state: the store filesystem, a count of network fetches issued
(`requests.get` calls), and a count of pacing sleeps incurred
(`sleep(random.uniform(min_wait, max_wait))`, line 169). -/
structure DState where
  fs : FS
  fetchCount : Nat
  sleepCount : Nat
  deriving DecidableEq

/-- The downloader configuration used by the pipeline: the store root and
the active thumbnail specs `{thumb_id: (width, height)}` as an association
list. -/
structure Cfg where
  store_path : String
  thumbs_size : List (String × Nat × Nat)

/-! ## The single-item pipeline `download_image` (downloader.py lines 132-178)

The Python method performs side effects as it goes, so the embedding threads
an explicit `DState` and always returns the state reached, paired with the
checksum or the first exception raised. -/

/-- The thumbnail loop (downloader.py lines 171-176):

    for thumb_id, size in self.thumbs_size.items():
        thumb_path = self.thumb_path(url, thumb_id)
        if not thumb_path.exists() or force:
            orig_img = orig_img or Image.open(str(path))
            thumb_image, thumb_buf = self.convert_image(orig_img, size)
            self._persist_file(thumb_path, thumb_buf)

`origImg` is the lazily cached in-memory image; `path` is the full-image
path, decoded on demand (`Image.open` raising on a missing or undecodable
file is the error case). -/
def thumbLoop (env : Env) (cfg : Cfg) (url : String) (force : Bool)
    (path : FilePath) : List (String × Nat × Nat) → DState → Option Img →
    DState × Except PyErr Unit
  | [], st, _ => (st, Except.ok ())
  | (thumb_id, size) :: rest, st, origImg =>
    let tpath := thumb_path cfg.store_path url thumb_id
    if ¬ st.fs.pathExists tpath ∨ force then
      let getOrig : Except PyErr Img :=
        match origImg with
        | some im => Except.ok im
        | none =>
          match st.fs.read path with
          | none => Except.error (PyErr.fileNotFound "full image missing")
          | some b => env.decode b
      match getOrig with
      | Except.error e => (st, Except.error e)
      | Except.ok im =>
        let thumb_buf := (convert_image env im (some size)).2
        thumbLoop env cfg url force path rest
          { st with fs := st.fs.write tpath thumb_buf } (some im)
    else
      thumbLoop env cfg url force path rest st origImg

/-- The fetch-and-persist step of `download_image` (lines 156-169): when the
full path is missing or `force` is set, fetch, decode, convert without
resizing, persist, and pace; otherwise do nothing.  Returns the decoded
original image when a fetch happened. -/
def fetchStep (env : Env) (st : DState) (url : String) (force : Bool)
    (path : FilePath) : DState × Except PyErr (Option Img) :=
  if ¬ st.fs.pathExists path ∨ force then
    match env.fetch url with
    | Except.error e =>
      ({ st with fetchCount := st.fetchCount + 1 }, Except.error e)
    | Except.ok content =>
      match env.decode content with
      | Except.error e =>
        ({ st with fetchCount := st.fetchCount + 1 }, Except.error e)
      | Except.ok orig_img =>
        let buf := (convert_image env orig_img none).2
        ({ fs := st.fs.write path buf, fetchCount := st.fetchCount + 1,
           sleepCount := st.sleepCount + 1 }, Except.ok (some orig_img))
  else (st, Except.ok none)

/-- `utils.md5sum(path)`, modelled from the spec: "`checksum(path) -> digest`
computed over the file's on-disk bytes" (§4.4); the source of `utils` is not
in the repository snapshot.  Reads the file at `path` and digests its bytes
(reading a missing file raises). -/
def md5sum (env : Env) (fs : FS) (path : FilePath) : Except PyErr String :=
  match fs.read path with
  | none => Except.error (PyErr.fileNotFound "md5sum: no such file")
  | some b => Except.ok (env.md5 b)

/-- `download_image` (downloader.py lines 132-178): the full single-item
pipeline.  Returns the state reached and the MD5 checksum of the stored full
image, or the first exception raised. -/
def download_image (env : Env) (cfg : Cfg) (st : DState) (url : String)
    (force : Bool) : DState × Except PyErr String :=
  let path := file_path cfg.store_path url
  match fetchStep env st url force path with
  | (st1, Except.error e) => (st1, Except.error e)
  | (st1, Except.ok origImg) =>
    match thumbLoop env cfg url force path cfg.thumbs_size st1 origImg with
    | (st2, Except.error e) => (st2, Except.error e)
    | (st2, Except.ok _) => (st2, md5sum env st2.fs path)

/-! ## `__call__` (lines 90-130) and the batch `download` (lines 235-315) -/

/-- The argument of `__call__`: a single url string or a list of urls. -/
abbrev UrlArg := String ⊕ List String

/-- The result of `__call__`: a single checksum, or a positional list with
`None` for items whose download raised. -/
abbrev CallResult := String ⊕ List (Option String)

/-- How a finished item is recorded in a batch: its checksum on success,
the explicit `None` failure marker when it raised. -/
def resultSlot : Except PyErr String → Option String
  | Except.ok c => some c
  | Except.error _ => none

/-- The batch loop of `__call__` (lines 122-130): one slot per url, each
filled with the checksum or left `None` when `download_image` raised (the
exception is only logged). -/
def callBatch (env : Env) (cfg : Cfg) (force : Bool) :
    List String → DState → List (Option String) × DState
  | [], st => ([], st)
  | url :: rest, st =>
    let r := download_image env cfg st url force
    let rec1 := callBatch env cfg force rest r.1
    (resultSlot r.2 :: rec1.1, rec1.2)

/-- `__call__` (downloader.py lines 90-130): a single url is passed straight
to `download_image` (line 113), so its exception propagates; a list is run
through the batch loop, which swallows per-item exceptions. -/
def call (env : Env) (cfg : Cfg) (st : DState) (urls : UrlArg) (force : Bool) :
    DState × Except PyErr CallResult :=
  match urls with
  | Sum.inl url =>
    let r := download_image env cfg st url force
    (r.1, r.2.map Sum.inl)
  | Sum.inr urlList =>
    let (slots, st1) := callBatch env cfg force urlList st
    (st1, Except.ok (Sum.inr slots))

/-- Look up a key in the result mapping. -/
def lookupResult (m : List (String × Option String)) (u : String) :
    Option (Option String) :=
  match m.find? (fun e => e.1 = u) with
  | some e => some e.2
  | none => none

/-- Record the finished item `url` in the result dict (`results[url] = ...`,
lines 311/313): overwrite any earlier entry for the same key. -/
def recordResult (m : List (String × Option String)) (u : String)
    (v : Option String) : List (String × Option String) :=
  (u, v) :: m.filter (fun e => ¬ e.1 = u)

/-- The batch `download` function (downloader.py lines 235-315).  Each url is
submitted to a worker that runs `downloader(url, force)`; the result dict
maps each url to its checksum, or to `None` when the worker's future holds
an exception (lines 306-313).  The thread pool is modelled by a sequential
linearization: items run one after the other against the shared store, which
realizes one admissible schedule; the properties verified (totality of the
mapping and per-item failure isolation) are schedule-independent. -/
def download (env : Env) (cfg : Cfg) (st : DState) (iterator : List String)
    (force : Bool) : List (String × Option String) × DState :=
  match iterator with
  | [] => ([], st)
  | url :: rest =>
    let r := download_image env cfg st url force
    let rec1 := download env cfg r.1 rest force
    (recordResult rec1.1 url (resultSlot r.2), rec1.2)

/-- The pipeline state reached after the items of a prefix of the batch have
run, in the linearized schedule of `download`. -/
def stateAfter (env : Env) (cfg : Cfg) (force : Bool) :
    List String → DState → DState
  | [], st => st
  | url :: rest, st =>
    stateAfter env cfg force rest (download_image env cfg st url force).1

/-! ## Constructor thumbnail logic (downloader.py lines 67-72) -/

/-- The configuration mapping read by `__init__`'s default arguments. -/
structure Config where
  THUMBS : Bool
  THUMBS_SIZES : List (String × Nat × Nat)

/-- The value `self.thumbs_size` can take: a `{name: (w, h)}` mapping, or —
through `thumbs_size or config['THUMBS']` — the boolean `THUMBS` flag
itself. -/
inductive ThumbsSpec where
  | mapping (m : List (String × Nat × Nat))
  | flag (b : Bool)
  deriving DecidableEq

/-- The `thumbs_size` argument: `None`, or a dict (possibly empty). -/
abbrev ThumbsArg := Option (List (String × Nat × Nat))

/-- Python truthiness of the `thumbs_size` argument: `None` and `{}` are
falsy. -/
def thumbsArgTruthy : ThumbsArg → Bool
  | none => false
  | some [] => false
  | some (_ :: _) => true

/-- `__init__` lines 67-72:

    if thumbs:
        self.thumbs_size = thumbs_size or config['THUMBS']
    else:
        self.thumbs_size = {}

Note the fallback is `config['THUMBS']` (the boolean flag), not
`config['THUMBS_SIZES']`. -/
def init_thumbs_size (thumbs : Bool) (thumbs_size : ThumbsArg)
    (config : Config) : ThumbsSpec :=
  if thumbs then
    if thumbsArgTruthy thumbs_size then
      ThumbsSpec.mapping (thumbs_size.getD [])
    else
      ThumbsSpec.flag config.THUMBS
  else
    ThumbsSpec.mapping []

/-! ## Basic lemmas about the store and the paths -/

theorem FS.read_write_self (fs : FS) (p : FilePath) (b : Bytes) :
    (fs.write p b).read p = some b := by
  simp [FS.write, FS.read, List.find?]

theorem FS.read_write_ne (fs : FS) (p q : FilePath) (b : Bytes) (h : q ≠ p) :
    (fs.write p b).read q = fs.read q := by
  simp only [FS.write, FS.read, List.find?]
  have : ¬ ((p, b).1 = q) := by simpa using fun hpq => h hpq.symm
  simp [this]

theorem FS.pathExists_write_self (fs : FS) (p : FilePath) (b : Bytes) :
    (fs.write p b).pathExists p = true := by
  simp [FS.pathExists, FS.read_write_self]

theorem FS.pathExists_write_mono (fs : FS) (p q : FilePath) (b : Bytes)
    (h : fs.pathExists q = true) : (fs.write p b).pathExists q = true := by
  by_cases hpq : q = p
  · subst hpq; exact fs.pathExists_write_self q b
  · simpa [FS.pathExists, FS.read_write_ne fs p q b hpq] using h

theorem FS.pathExists_write_ne (fs : FS) (p q : FilePath) (b : Bytes)
    (h : q ≠ p) : (fs.write p b).pathExists q = fs.pathExists q := by
  simp [FS.pathExists, FS.read_write_ne fs p q b h]

/-- The full-image path and every thumbnail path are distinct files: the
subdirectory component differs (`full` vs `thumbs`). -/
theorem file_path_ne_thumb_path (store url url' tid : String) :
    file_path store url ≠ thumb_path store url' tid := by
  simp [file_path, thumb_path]

/-- Thumbnail paths for different thumbnail ids are distinct files. -/
theorem thumb_path_ne_of_tid_ne (store url url' tid tid' : String)
    (h : tid ≠ tid') :
    thumb_path store url tid ≠ thumb_path store url' tid' := by
  simp [thumb_path]
  intro htid _
  exact absurd htid h

/-! ## Lemmas about `fetchStep` -/

/-- Cache hit (downloader.py line 158, `not path.exists() or force` false):
no fetch, no decode, no write, no pacing. -/
theorem fetchStep_cached (env : Env) (st : DState) (url : String)
    (path : FilePath) (h : st.fs.pathExists path = true) :
    fetchStep env st url false path = (st, Except.ok none) := by
  simp [fetchStep, h]

/-- After a successful fetch step the full-image path exists: either it
already did, or the converted buffer was just persisted there. -/
theorem fetchStep_success_exists (env : Env) (st : DState) (url : String)
    (force : Bool) (path : FilePath) (st1 : DState) (o : Option Img)
    (h : fetchStep env st url force path = (st1, Except.ok o)) :
    st1.fs.pathExists path = true := by
  unfold fetchStep at h
  split at h
  · split at h
    · simp at h
    · split at h
      · simp at h
      · rw [Prod.mk.injEq] at h
        rw [← h.1]
        exact FS.pathExists_write_self _ _ _
  · rw [Prod.mk.injEq] at h
    rw [← h.1]
    rename_i hcond
    rw [not_or] at hcond
    simpa using hcond.1

/-! ## Lemmas about the thumbnail loop -/

/-- The thumbnail loop never fetches and never paces: it only touches the
filesystem. -/
theorem thumbLoop_counts (env : Env) (cfg : Cfg) (url : String) (force : Bool)
    (path : FilePath) (l : List (String × Nat × Nat)) :
    ∀ (st : DState) (o : Option Img),
      (thumbLoop env cfg url force path l st o).1.fetchCount = st.fetchCount ∧
      (thumbLoop env cfg url force path l st o).1.sleepCount = st.sleepCount := by
  induction l with
  | nil => intro st o; simp [thumbLoop]
  | cons hd rest ih =>
    intro st o
    obtain ⟨thumb_id, size⟩ := hd
    simp only [thumbLoop]
    split
    · split
      · simp
      · exact ih _ _
    · exact ih _ _

/-- The thumbnail loop writes only thumbnail paths of the thumb ids it
iterates over; any other file is untouched. -/
theorem thumbLoop_read_untouched (env : Env) (cfg : Cfg) (url : String)
    (force : Bool) (path : FilePath) (l : List (String × Nat × Nat)) :
    ∀ (st : DState) (o : Option Img) (q : FilePath),
      (∀ t, t ∈ l.map Prod.fst → q ≠ thumb_path cfg.store_path url t) →
      (thumbLoop env cfg url force path l st o).1.fs.read q = st.fs.read q := by
  induction l with
  | nil => intro st o q _; simp [thumbLoop]
  | cons hd rest ih =>
    intro st o q hq
    obtain ⟨thumb_id, size⟩ := hd
    have hq0 : q ≠ thumb_path cfg.store_path url thumb_id := by
      exact hq thumb_id (by simp)
    have hqrest : ∀ t, t ∈ rest.map Prod.fst → q ≠ thumb_path cfg.store_path url t := by
      intro t ht
      exact hq t (by simp [ht])
    simp only [thumbLoop]
    split
    · split
      · rfl
      · rw [ih _ _ _ hqrest]
        exact FS.read_write_ne _ _ _ _ hq0
    · exact ih _ _ _ hqrest

/-- Files existing before the thumbnail loop still exist after it. -/
theorem thumbLoop_exists_mono (env : Env) (cfg : Cfg) (url : String)
    (force : Bool) (path : FilePath) (l : List (String × Nat × Nat)) :
    ∀ (st : DState) (o : Option Img) (q : FilePath),
      st.fs.pathExists q = true →
      (thumbLoop env cfg url force path l st o).1.fs.pathExists q = true := by
  induction l with
  | nil => intro st o q h; simpa [thumbLoop] using h
  | cons hd rest ih =>
    intro st o q h
    obtain ⟨thumb_id, size⟩ := hd
    simp only [thumbLoop]
    split
    · split
      · exact h
      · exact ih _ _ _ (FS.pathExists_write_mono _ _ _ _ h)
    · exact ih _ _ _ h

/-- After a successful run of the thumbnail loop, every configured thumbnail
file exists. -/
theorem thumbLoop_thumbs_exist (env : Env) (cfg : Cfg) (url : String)
    (force : Bool) (path : FilePath) (l : List (String × Nat × Nat)) :
    ∀ (st : DState) (o : Option Img) (st' : DState),
      thumbLoop env cfg url force path l st o = (st', Except.ok ()) →
      ∀ t s, (t, s) ∈ l →
        st'.fs.pathExists (thumb_path cfg.store_path url t) = true := by
  induction l with
  | nil => intro st o st' _ t s hmem; simp at hmem
  | cons hd rest ih =>
    intro st o st' hrun t s hmem
    obtain ⟨thumb_id, size⟩ := hd
    simp only [thumbLoop] at hrun
    rcases List.mem_cons.mp hmem with hhd | htl
    · -- the thumb in question is the head of the loop
      have hts : t = thumb_id := by
        simpa using congrArg Prod.fst hhd
      subst hts
      split at hrun
      · split at hrun
        · simp at hrun
        · -- written, then preserved through the rest of the loop
          rename_i im heq
          have hw : ({ st with fs := st.fs.write (thumb_path cfg.store_path url t) ((convert_image env im (some size)).2) } : DState).fs.pathExists (thumb_path cfg.store_path url t) = true :=
            FS.pathExists_write_self st.fs _ _
          have hmono := thumbLoop_exists_mono env cfg url force path rest _ (some im) _ hw
          rw [hrun] at hmono
          simpa using hmono
      · -- head skipped: its path already existed
        rename_i hcond
        have hex : st.fs.pathExists (thumb_path cfg.store_path url t) = true := by
          rcases not_or.mp hcond with ⟨h1, _⟩
          simpa using h1
        have hmono := thumbLoop_exists_mono env cfg url force path rest st o _ hex
        rw [hrun] at hmono
        simpa using hmono
    · -- the thumb is further down the list
      split at hrun
      · split at hrun
        · simp at hrun
        · exact ih _ _ _ hrun t s htl
      · exact ih _ _ _ hrun t s htl

/-- If every configured thumbnail already exists and force is off, the loop
does nothing at all. -/
theorem thumbLoop_all_exist (env : Env) (cfg : Cfg) (url : String)
    (path : FilePath) (l : List (String × Nat × Nat)) :
    ∀ (st : DState) (o : Option Img),
      (∀ t s, (t, s) ∈ l →
        st.fs.pathExists (thumb_path cfg.store_path url t) = true) →
      thumbLoop env cfg url false path l st o = (st, Except.ok ()) := by
  induction l with
  | nil => intro st o _; simp [thumbLoop]
  | cons hd rest ih =>
    intro st o hex
    obtain ⟨thumb_id, size⟩ := hd
    have h0 : st.fs.pathExists (thumb_path cfg.store_path url thumb_id) = true :=
      hex thumb_id size (by simp)
    simp only [thumbLoop, h0]
    simp only [not_true, false_or, if_false]
    exact ih st o (fun t s hts => hex t s (by simp [hts]))

/-- When the persisted full image is decodable, the thumbnail loop runs to
completion: the lazily decoded image (or the one already in memory) serves
every missing thumbnail, and the full-image file is left untouched. -/
theorem thumbLoop_run (env : Env) (cfg : Cfg) (url : String) (path : FilePath)
    (b : Bytes) (im : Img)
    (hp : ∀ t, path ≠ thumb_path cfg.store_path url t)
    (hdec : env.decode b = Except.ok im)
    (l : List (String × Nat × Nat)) :
    ∀ (st : DState) (o : Option Img),
      st.fs.read path = some b → (o = none ∨ o = some im) →
      ∃ st', thumbLoop env cfg url false path l st o = (st', Except.ok ()) ∧
        st'.fs.read path = some b := by
  induction l with
  | nil =>
    intro st o hread _
    exact ⟨st, by simp [thumbLoop], hread⟩
  | cons hd rest ih =>
    intro st o hread ho
    obtain ⟨thumb_id, size⟩ := hd
    have hgetOrig : (match o with
        | some i => Except.ok i
        | none =>
          match st.fs.read path with
          | none => Except.error (PyErr.fileNotFound "full image missing")
          | some bb => env.decode bb) = Except.ok im := by
      rcases ho with h | h <;> subst h <;> simp [hread, hdec]
    simp only [thumbLoop]
    split
    · rw [hgetOrig]
      have hread2 : ({ st with fs := st.fs.write (thumb_path cfg.store_path url thumb_id) ((convert_image env im (some size)).2) } : DState).fs.read path = some b := by
        rw [FS.read_write_ne _ _ _ _ (hp thumb_id)]
        exact hread
      exact ih _ (some im) hread2 (Or.inr rfl)
    · exact ih st o hread ho

/-- The bytes a produced thumbnail gets are the JPEG encoding of the
in-memory image (cached from the fetch, or lazily decoded from the persisted
full-image file) resized to that thumbnail's target size. -/
theorem thumbLoop_bytes (env : Env) (cfg : Cfg) (url : String) (path : FilePath)
    (b : Bytes) (im : Img) (tid : String) (tw th : Nat)
    (l : List (String × Nat × Nat)) :
    ∀ (st : DState) (o : Option Img),
      (o = some im ∨
        (o = none ∧ st.fs.read path = some b ∧ env.decode b = Except.ok im)) →
      (tid, tw, th) ∈ l → (l.map Prod.fst).Nodup →
      st.fs.pathExists (thumb_path cfg.store_path url tid) = false →
      (thumbLoop env cfg url false path l st o).1.fs.read
          (thumb_path cfg.store_path url tid) =
        some (convert_image env im (some (tw, th))).2 := by
  induction l with
  | nil =>
    intro st o _ hmem _ _
    simp at hmem
  | cons hd rest ih =>
    intro st o ho hmem hnodup hmiss
    obtain ⟨t0, s0⟩ := hd
    have hgetOrig : (match o with
        | some i => Except.ok i
        | none =>
          match st.fs.read path with
          | none => Except.error (PyErr.fileNotFound "full image missing")
          | some bb => env.decode bb) = Except.ok im := by
      rcases ho with h | ⟨h, hread, hdec⟩
      · subst h; simp
      · subst h; simp [hread, hdec]
    rw [List.map_cons, List.nodup_cons] at hnodup
    rcases List.mem_cons.mp hmem with hhd | htl
    · -- head of the loop is the thumbnail in question
      have ht0 : t0 = tid := (congrArg Prod.fst hhd.symm : _)
      have hs0 : s0 = (tw, th) := (congrArg Prod.snd hhd.symm : _)
      subst ht0; subst hs0
      have hcond : ¬ st.fs.pathExists (thumb_path cfg.store_path url t0) = true ∨ False := by
        left; simp [hmiss]
      simp only [thumbLoop]
      split
      · rw [hgetOrig]
        have huntouched := thumbLoop_read_untouched env cfg url false path rest
          { st with fs := st.fs.write (thumb_path cfg.store_path url t0) ((convert_image env im (some (tw, th))).2) }
          (some im) (thumb_path cfg.store_path url t0)
          (fun t ht => thumb_path_ne_of_tid_ne _ _ _ _ _
            (fun h => hnodup.1 (h ▸ ht)))
        rw [huntouched]
        exact FS.read_write_self _ _ _
      · rename_i hc
        exact absurd (Or.inl (by simp [hmiss])) hc
    · -- the thumbnail in question is further down the list
      have htid_rest : tid ∈ rest.map Prod.fst :=
        List.mem_map.mpr ⟨(tid, tw, th), htl, rfl⟩
      have ht0tid : t0 ≠ tid := fun h => hnodup.1 (h ▸ htid_rest)
      have hne : thumb_path cfg.store_path url tid ≠ thumb_path cfg.store_path url t0 :=
        thumb_path_ne_of_tid_ne _ _ _ _ _ (fun h => ht0tid h.symm)
      simp only [thumbLoop]
      split
      · rw [hgetOrig]
        have hmiss2 : ({ st with fs := st.fs.write (thumb_path cfg.store_path url t0) ((convert_image env im (some s0)).2) } : DState).fs.pathExists (thumb_path cfg.store_path url tid) = false := by
          rw [FS.pathExists_write_ne _ _ _ _ hne]
          exact hmiss
        exact ih _ (some im) (Or.inl rfl) htl hnodup.2 hmiss2
      · exact ih st o ho htl hnodup.2 hmiss

/-! ## Lemmas about the whole single-item pipeline -/

/-- What a successful `download_image` run guarantees about the state it
leaves: the full-image file exists, every configured thumbnail exists, and
the returned checksum is the digest of the full-image file on disk. -/
theorem download_image_success_post (env : Env) (cfg : Cfg) (st : DState)
    (url : String) (force : Bool) (st1 : DState) (c : String)
    (h : download_image env cfg st url force = (st1, Except.ok c)) :
    st1.fs.pathExists (file_path cfg.store_path url) = true ∧
    (∀ t s, (t, s) ∈ cfg.thumbs_size →
      st1.fs.pathExists (thumb_path cfg.store_path url t) = true) ∧
    md5sum env st1.fs (file_path cfg.store_path url) = Except.ok c := by
  simp only [download_image] at h
  split at h
  · simp at h
  · rename_i st' o hfetch
    split at h
    · simp at h
    · rename_i st2 u hloop
      rw [Prod.mk.injEq] at h
      obtain ⟨hst, hmd5⟩ := h
      subst hst
      refine ⟨?_, ?_, hmd5⟩
      · unfold md5sum at hmd5
        split at hmd5
        · simp at hmd5
        · rename_i b hread
          simp [FS.pathExists, hread]
      · intro t s hts
        exact thumbLoop_thumbs_exist env cfg url force _ _ _ _ _ hloop t s hts

/-- C2: invoking the single-item pipeline twice on the same identifier
without forcing yields the same checksum both times; the second invocation
leaves the state untouched — in particular it performs no network fetch
(`fetchCount` unchanged) and incurs no pacing delay (`sleepCount`
unchanged) — because the full-image path (and every thumbnail path) already
exists on disk after the first successful run. -/
theorem download_image_idempotent (env : Env) (cfg : Cfg) (st : DState)
    (url : String) (st1 : DState) (c : String)
    (h : download_image env cfg st url false = (st1, Except.ok c)) :
    download_image env cfg st1 url false = (st1, Except.ok c) ∧
    (download_image env cfg st1 url false).1.fetchCount = st1.fetchCount ∧
    (download_image env cfg st1 url false).1.sleepCount = st1.sleepCount := by
  obtain ⟨hpath, hthumbs, hmd5⟩ := download_image_success_post env cfg st url false st1 c h
  have hrun : download_image env cfg st1 url false = (st1, Except.ok c) := by
    have h1 := fetchStep_cached env st1 url (file_path cfg.store_path url) hpath
    have h2 := thumbLoop_all_exist env cfg url (file_path cfg.store_path url)
      cfg.thumbs_size st1 none hthumbs
    simp only [download_image, h1, h2, hmd5]
  exact ⟨hrun, by rw [hrun], by rw [hrun]⟩

/-- C4: a successful single-item pipeline run returns a checksum computed
over the bytes found on disk at the full-image path after the call — the
digest of exactly what `fullPath(id)` then holds, not of any in-memory
buffer. -/
theorem checksum_reflects_disk (env : Env) (cfg : Cfg) (st : DState)
    (url : String) (force : Bool) (st1 : DState) (c : String)
    (h : download_image env cfg st url force = (st1, Except.ok c)) :
    ∃ b, st1.fs.read (file_path cfg.store_path url) = some b ∧ c = env.md5 b := by
  obtain ⟨_, _, hmd5⟩ := download_image_success_post env cfg st url force st1 c h
  unfold md5sum at hmd5
  split at hmd5
  · simp at hmd5
  · rename_i b hread
    exact ⟨b, hread, by simpa using hmd5.symm⟩

/-- C7: each thumbnail's existence is checked on its own: when the full
image is already on disk (and decodable) but a configured thumbnail is
missing and force is off, a run produces that thumbnail without issuing any
network fetch (and without pacing), and still returns the checksum of the
stored full image. -/
theorem thumbnail_regenerated_without_fetch (env : Env) (cfg : Cfg)
    (st : DState) (url : String) (tid : String) (tw th : Nat)
    (b : Bytes) (im : Img)
    (hmem : (tid, tw, th) ∈ cfg.thumbs_size)
    (hfull : st.fs.read (file_path cfg.store_path url) = some b)
    (hdec : env.decode b = Except.ok im)
    (hmiss : st.fs.pathExists (thumb_path cfg.store_path url tid) = false) :
    (download_image env cfg st url false).1.fs.pathExists
        (thumb_path cfg.store_path url tid) = true ∧
    (download_image env cfg st url false).1.fetchCount = st.fetchCount ∧
    (download_image env cfg st url false).1.sleepCount = st.sleepCount ∧
    (download_image env cfg st url false).2 = Except.ok (env.md5 b) := by
  have hpath : st.fs.pathExists (file_path cfg.store_path url) = true := by
    simp [FS.pathExists, hfull]
  obtain ⟨st', hloop, hread'⟩ := thumbLoop_run env cfg url
    (file_path cfg.store_path url) b im
    (fun t => file_path_ne_thumb_path cfg.store_path url url t)
    hdec cfg.thumbs_size st none hfull (Or.inl rfl)
  have hdl : download_image env cfg st url false =
      (st', md5sum env st'.fs (file_path cfg.store_path url)) := by
    have h1 := fetchStep_cached env st url (file_path cfg.store_path url) hpath
    simp only [download_image, h1, hloop]
  have hcounts := thumbLoop_counts env cfg url false
    (file_path cfg.store_path url) cfg.thumbs_size st none
  rw [hloop] at hcounts
  refine ⟨?_, ?_, ?_, ?_⟩
  · rw [hdl]
    exact thumbLoop_thumbs_exist env cfg url false _ cfg.thumbs_size st none st'
      hloop tid (tw, th) hmem
  · rw [hdl]; exact hcounts.1
  · rw [hdl]; exact hcounts.2
  · rw [hdl]
    simp [md5sum, hread']

/-- C8: a single-identifier call (`__call__` with a string argument) is
passed straight to `download_image`, so the first fatal error of the
pipeline propagates to the caller as an error instead of being caught and
recorded as in a batch call. -/
theorem single_call_propagates_error (env : Env) (cfg : Cfg) (st : DState)
    (url : String) (force : Bool) :
    call env cfg st (Sum.inl url) force =
      ((download_image env cfg st url force).1,
        (download_image env cfg st url force).2.map Sum.inl) ∧
    (∀ e, (download_image env cfg st url force).2 = Except.error e →
      (call env cfg st (Sum.inl url) force).2 = Except.error e) := by
  refine ⟨rfl, ?_⟩
  intro e he
  simp [call, he, Except.map]

/-- C10: in the constructor, when `thumbs` is true and the supplied
`thumbs_size` is falsy (`None` or `{}`), the active thumbnail specification
becomes the configured `THUMBS` value (the boolean flag) — not the
`THUMBS_SIZES` mapping; when `thumbs` is false it is the empty mapping
regardless of `thumbs_size`. -/
theorem init_thumbs_size_fallback (thumbs : Bool) (ts : ThumbsArg)
    (config : Config) :
    (thumbs = true → thumbsArgTruthy ts = false →
      init_thumbs_size thumbs ts config = ThumbsSpec.flag config.THUMBS) ∧
    (thumbs = false →
      init_thumbs_size thumbs ts config = ThumbsSpec.mapping []) := by
  constructor
  · intro h1 h2
    simp [init_thumbs_size, h1, h2]
  · intro h1
    simp [init_thumbs_size, h1]

/-- C3: the full-image path and each thumbnail path are pure functions of
the identifier (and thumbnail id): a fixed-length 160-bit SHA-1 digest of
the identifier's UTF-8 bytes, hex-encoded to 40 characters, joined with the
fixed `.jpg` extension under `full/` resp. `thumbs/<tid>/`.  Purity and
repeatability hold by construction: both resolvers are functions of the
store root, the identifier and the thumb id alone — no clock, content or
random state appears. -/
theorem path_resolver_deterministic (store url tid : String) :
    file_path store url = [store, "full", sha1hex (to_bytes url) ++ ".jpg"] ∧
    thumb_path store url tid =
      [store, "thumbs", tid, sha1hex (to_bytes url) ++ ".jpg"] ∧
    sha1hex (to_bytes url) = toHexFixed (sha1 (to_bytes url)) 40 ∧
    (sha1hex (to_bytes url)).length = 40 := by
  refine ⟨rfl, rfl, rfl, ?_⟩
  simp [sha1hex, toHexFixed, String.length]

/-! ## The batch result mapping -/

theorem lookupResult_record_self (m : List (String × Option String))
    (u : String) (v : Option String) :
    lookupResult (recordResult m u v) u = some v := by
  simp [lookupResult, recordResult, List.find?]

theorem find_filter_other (m : List (String × Option String)) (u u' : String)
    (h : u' ≠ u) :
    List.find? (fun e => e.1 = u') (m.filter (fun e => ¬ e.1 = u)) =
      List.find? (fun e => e.1 = u') m := by
  induction m with
  | nil => rfl
  | cons e rest ih =>
    by_cases he : e.1 = u
    · have hp : ¬ (e.1 = u') := fun hh => h (hh.symm.trans he)
      rw [List.filter_cons_of_neg (by simpa using he)]
      rw [List.find?_cons_of_neg _ (by simpa using hp)]
      exact ih
    · by_cases hp : e.1 = u'
      · rw [List.filter_cons_of_pos (by simpa using he)]
        rw [List.find?_cons_of_pos _ (by simpa using hp)]
        rw [List.find?_cons_of_pos _ (by simpa using hp)]
      · rw [List.filter_cons_of_pos (by simpa using he)]
        rw [List.find?_cons_of_neg _ (by simpa using hp)]
        rw [List.find?_cons_of_neg _ (by simpa using hp)]
        exact ih

theorem lookupResult_record_ne (m : List (String × Option String))
    (u u' : String) (v : Option String) (h : u' ≠ u) :
    lookupResult (recordResult m u v) u' = lookupResult m u' := by
  simp only [lookupResult, recordResult]
  rw [List.find?_cons_of_neg _ (by simpa using fun hh => h hh.symm)]
  rw [find_filter_other m u u' h]

/-- C1: a batch call's result mapping has one entry per input identifier:
every input url gets an entry; the entry of a url `u` (at its first
occurrence in the linearized schedule) is exactly the outcome of running the
single-item pipeline on `u` from the state the earlier items left — `none`,
the explicit failure marker, when that run raised, and the checksum
otherwise.  Items after a failing item still run and are still recorded,
since the outcome of each entry is given uniformly whatever the other
items' outcomes were. -/
theorem download_batch_total_and_isolated (env : Env) (cfg : Cfg)
    (st : DState) (force : Bool) (urls : List String) :
    (∀ u, u ∈ urls →
      (lookupResult (download env cfg st urls force).1 u).isSome = true) ∧
    (∀ pre u post, urls = pre ++ u :: post → u ∉ pre →
      lookupResult (download env cfg st urls force).1 u =
        some (resultSlot (download_image env cfg
          (stateAfter env cfg force pre st) u force).2)) := by
  have part1 : ∀ (l : List String) (s : DState) (u : String), u ∈ l →
      (lookupResult (download env cfg s l force).1 u).isSome = true := by
    intro l
    induction l with
    | nil => intro s u hu; simp at hu
    | cons url rest ih =>
      intro s u hu
      simp only [download]
      by_cases he : u = url
      · subst he
        rw [lookupResult_record_self]
        rfl
      · have h : u ∈ rest := by
          rcases List.mem_cons.mp hu with h | h
          · exact absurd h he
          · exact h
        rw [lookupResult_record_ne _ _ _ _ he]
        exact ih _ u h
  have part2 : ∀ (pre : List String) (s : DState) (u : String)
      (post : List String), u ∉ pre →
      lookupResult (download env cfg s (pre ++ u :: post) force).1 u =
        some (resultSlot (download_image env cfg
          (stateAfter env cfg force pre s) u force).2) := by
    intro pre
    induction pre with
    | nil =>
      intro s u post _
      simp only [List.nil_append, download, stateAfter]
      rw [lookupResult_record_self]
    | cons p pre' ih =>
      intro s u post hu
      have hup : u ≠ p := fun h => hu (by simp [h])
      have hupre : u ∉ pre' := fun h => hu (by simp [h])
      simp only [List.cons_append, download, stateAfter]
      rw [lookupResult_record_ne _ _ _ _ hup]
      exact ih _ u post hupre
  refine ⟨fun u hu => part1 urls st u hu, fun pre u post hsplit hupre => ?_⟩
  subst hsplit
  exact part2 pre st u post hupre

/-! ## Geometry of `Image.thumbnail` -/

/-- Floor division upper bound: `a < (a / b + 1) * b` for `b > 0`. -/
theorem div_floor_upper (a b : Nat) (hb : 0 < b) : a < (a / b + 1) * b :=
  (Nat.div_lt_iff_lt_mul hb).mp (Nat.lt_succ_self _)

/-- The thumbnail size fits the bounding box, never upscales, and keeps the
source aspect ratio up to one-pixel rounding (cross-multiplied slack of
`w + h`). -/
theorem thumbnailSize_spec (w h tw th : Nat) (hw : 1 ≤ w) (hh : 1 ≤ h)
    (htw : 1 ≤ tw) (hth : 1 ≤ th) :
    (thumbnailSize w h tw th).1 ≤ tw ∧ (thumbnailSize w h tw th).2 ≤ th ∧
    (thumbnailSize w h tw th).1 ≤ w ∧ (thumbnailSize w h tw th).2 ≤ h ∧
    (thumbnailSize w h tw th).1 * h ≤ (thumbnailSize w h tw th).2 * w + (w + h) ∧
    (thumbnailSize w h tw th).2 * w ≤ (thumbnailSize w h tw th).1 * h + (w + h) := by
  unfold thumbnailSize
  by_cases h1 : tw < w
  · simp only [h1, if_true]
    have hw0 : 0 < w := hw
    have hfh : h * tw / w ≤ h := by
      have hle : h * tw ≤ w * h := by
        calc h * tw ≤ h * w := Nat.mul_le_mul (le_refl h) (le_of_lt h1)
          _ = w * h := by ring
      have h3 : h * tw / w ≤ w * h / w := Nat.div_le_div_right hle
      rwa [Nat.mul_div_cancel_left h hw0] at h3
    have keyA : (h * tw / w) * w ≤ h * tw := Nat.div_mul_le_self (h * tw) w
    have keyB : h * tw < (h * tw / w) * w + w := by
      have h5 := div_floor_upper (h * tw) w hw0
      have h6 : (h * tw / w + 1) * w = (h * tw / w) * w + w := by ring
      rwa [h6] at h5
    generalize hy1gen : h * tw / w = y1 at hfh keyA keyB
    by_cases h2 : th < max y1 1
    · -- both branches taken: shrink to width tw, then to height th
      simp only [h2, if_true]
      have hy1 : max y1 1 = y1 := by omega
      rw [hy1] at h2 ⊢
      have hy1pos : 0 < y1 := by omega
      have hfd : tw * th / y1 ≤ tw := by
        have hle : tw * th ≤ y1 * tw := by
          calc tw * th ≤ tw * y1 := Nat.mul_le_mul (le_refl tw) (le_of_lt h2)
            _ = y1 * tw := by ring
        have h3 : tw * th / y1 ≤ y1 * tw / y1 := Nat.div_le_div_right hle
        rwa [Nat.mul_div_cancel_left tw hy1pos] at h3
      have keyC : (tw * th / y1) * y1 ≤ tw * th := Nat.div_mul_le_self (tw * th) y1
      have keyD : tw * th < (tw * th / y1) * y1 + y1 := by
        have h5 := div_floor_upper (tw * th) y1 hy1pos
        have h6 : (tw * th / y1 + 1) * y1 = (tw * th / y1) * y1 + y1 := by ring
        rwa [h6] at h5
      generalize hx1gen : tw * th / y1 = x1 at hfd keyC keyD
      rcases max_choice x1 1 with he | he <;> rw [he]
      · -- no clamping: the resized width is x1 = tw * th / y1
        refine ⟨hfd, le_refl th, le_trans hfd (le_of_lt h1), by omega, ?_, ?_⟩
        · -- x1 * h ≤ th * w + (w + h)
          have hchain : tw * (x1 * h) ≤ tw * (th * w + (w + h)) := by
            calc tw * (x1 * h) = x1 * (h * tw) := by ring
              _ ≤ x1 * (y1 * w + w) := Nat.mul_le_mul (le_refl x1) (le_of_lt keyB)
              _ = (x1 * y1) * w + x1 * w := by ring
              _ ≤ (tw * th) * w + tw * w :=
                  Nat.add_le_add (Nat.mul_le_mul keyC (le_refl w))
                    (Nat.mul_le_mul hfd (le_refl w))
              _ ≤ (tw * th) * w + (tw * w + tw * h) := by omega
              _ = tw * (th * w + (w + h)) := by ring
          exact Nat.le_of_mul_le_mul_left hchain htw
        · -- th * w ≤ x1 * h + (w + h)
          have hchain : tw * (th * w) ≤ tw * (x1 * h + (w + h)) := by
            calc tw * (th * w) = (tw * th) * w := by ring
              _ ≤ (x1 * y1 + y1) * w := Nat.mul_le_mul (le_of_lt keyD) (le_refl w)
              _ = x1 * (y1 * w) + y1 * w := by ring
              _ ≤ x1 * (h * tw) + h * tw :=
                  Nat.add_le_add (Nat.mul_le_mul (le_refl x1) keyA) keyA
              _ = tw * (x1 * h) + tw * h := by ring
              _ ≤ tw * (x1 * h) + (tw * w + tw * h) := by omega
              _ = tw * (x1 * h + (w + h)) := by ring
          exact Nat.le_of_mul_le_mul_left hchain htw
      · -- clamped to 1: the scaled width rounded to zero
        have hsmall : tw * th < y1 + y1 := by
          have h9 : x1 * y1 ≤ y1 := by
            have h10 : x1 ≤ 1 := by omega
            calc x1 * y1 ≤ 1 * y1 := Nat.mul_le_mul h10 (le_refl y1)
              _ = y1 := by ring
          omega
        have hthw : th * w < h + h := by
          have hq : tw * (th * w) < tw * (h + h) := by
            calc tw * (th * w) = (tw * th) * w := by ring
              _ < (y1 + y1) * w := by
                  have h11 : 0 < w := hw0
                  have h12 := Nat.mul_lt_mul_of_lt_of_le hsmall (le_refl w) h11
                  exact h12
              _ = y1 * w + y1 * w := by ring
              _ ≤ h * tw + h * tw := Nat.add_le_add keyA keyA
              _ = tw * (h + h) := by ring
          exact Nat.lt_of_mul_lt_mul_left hq
        refine ⟨htw, le_refl th, hw, by omega, ?_, ?_⟩
        · -- 1 * h ≤ th * w + (w + h)
          have h9 : 1 * h = h := by ring
          rw [h9]
          omega
        · -- th * w ≤ 1 * h + (w + h)
          have h9 : 1 * h = h := by ring
          rw [h9]
          omega
    · -- only the width branch taken: final size (tw, max y1 1)
      simp only [h2, if_false]
      refine ⟨le_refl tw, by omega, le_of_lt h1, by omega, ?_, ?_⟩
      · -- tw * h ≤ max y1 1 * w + (w + h)
        have h8 : y1 * w ≤ max y1 1 * w :=
          Nat.mul_le_mul (Nat.le_max_left y1 1) (le_refl w)
        have h9 : tw * h = h * tw := by ring
        rw [h9]
        omega
      · -- max y1 1 * w ≤ tw * h + (w + h)
        rcases max_choice y1 1 with he | he <;> rw [he]
        · have h9 : tw * h = h * tw := by ring
          rw [h9]
          omega
        · have h9 : 1 * w = w := by ring
          rw [h9]
          omega
  · -- width already fits
    simp only [h1, if_false]
    by_cases h2 : th < h
    · -- only the height branch taken: final size (max (w*th/h) 1, th)
      simp only [h2, if_true]
      have hh0 : 0 < h := hh
      have hfw : w * th / h ≤ w := by
        have hle : w * th ≤ h * w := by
          calc w * th ≤ w * h := Nat.mul_le_mul (le_refl w) (le_of_lt h2)
            _ = h * w := by ring
        have h3 : w * th / h ≤ h * w / h := Nat.div_le_div_right hle
        rwa [Nat.mul_div_cancel_left w hh0] at h3
      have keyA : (w * th / h) * h ≤ w * th := Nat.div_mul_le_self (w * th) h
      have keyB : w * th < (w * th / h) * h + h := by
        have h5 := div_floor_upper (w * th) h hh0
        have h6 : (w * th / h + 1) * h = (w * th / h) * h + h := by ring
        rwa [h6] at h5
      generalize hx1gen : w * th / h = x1 at hfw keyA keyB
      refine ⟨by omega, le_refl th, by omega, le_of_lt h2, ?_, ?_⟩
      · -- max x1 1 * h ≤ th * w + (w + h)
        rcases max_choice x1 1 with he | he <;> rw [he]
        · have h9 : th * w = w * th := by ring
          rw [h9]
          omega
        · have h9 : 1 * h = h := by ring
          rw [h9]
          omega
      · -- th * w ≤ max x1 1 * h + (w + h)
        have h8 : x1 * h ≤ max x1 1 * h :=
          Nat.mul_le_mul (Nat.le_max_left x1 1) (le_refl h)
        have h9 : th * w = w * th := by ring
        rw [h9]
        omega
    · -- neither branch taken: size unchanged
      simp only [h2, if_false]
      exact ⟨not_lt.mp h1, not_lt.mp h2, le_refl w, le_refl h,
        by rw [Nat.mul_comm w h]; omega, by rw [Nat.mul_comm h w]; omega⟩

/-- The mode-conversion stage of `convert_image` does not change the
image's dimensions; without a target size no resize happens either. -/
theorem convert_image_none_dims (env : Env) (img : Img) :
    (convert_image env img none).1.width = img.width ∧
    (convert_image env img none).1.height = img.height := by
  simp only [convert_image]
  split_ifs <;> simp [pasteOverWhite, convertRGB, convertRGBA]

/-- The resized image's dimensions are exactly `thumbnailSize` applied to
the source dimensions and the target box. -/
theorem thumbnail_dims (img : Img) (tw th : Nat) :
    (thumbnail img tw th).width = (thumbnailSize img.width img.height tw th).1 ∧
    (thumbnail img tw th).height = (thumbnailSize img.width img.height tw th).2 := by
  unfold thumbnail
  rcases hts : thumbnailSize img.width img.height tw th with ⟨x, y⟩
  by_cases h : x = img.width ∧ y = img.height
  · simp [h, h.1, h.2]
  · simp [h]

theorem convert_image_some_dims (env : Env) (img : Img) (tw th : Nat) :
    (convert_image env img (some (tw, th))).1.width =
      (thumbnailSize img.width img.height tw th).1 ∧
    (convert_image env img (some (tw, th))).1.height =
      (thumbnailSize img.width img.height tw th).2 := by
  simp only [convert_image]
  split_ifs <;>
    simp [thumbnail_dims, pasteOverWhite, convertRGB, convertRGBA]

/-- C6: with a supplied target size, normalization resizes to fit inside the
bounding box, preserving the source aspect ratio up to one-pixel rounding
(stated with cross-multiplied slack `w + h`) and never upscaling beyond the
source dimensions; with no target size, no resizing occurs. -/
theorem convert_image_resize_fits (env : Env) (img : Img) (tw th : Nat)
    (hw : 1 ≤ img.width) (hh : 1 ≤ img.height)
    (htw : 1 ≤ tw) (hth : 1 ≤ th) :
    ((convert_image env img (some (tw, th))).1.width ≤ tw ∧
      (convert_image env img (some (tw, th))).1.height ≤ th) ∧
    ((convert_image env img (some (tw, th))).1.width ≤ img.width ∧
      (convert_image env img (some (tw, th))).1.height ≤ img.height) ∧
    ((convert_image env img (some (tw, th))).1.width * img.height ≤
        (convert_image env img (some (tw, th))).1.height * img.width +
          (img.width + img.height) ∧
      (convert_image env img (some (tw, th))).1.height * img.width ≤
        (convert_image env img (some (tw, th))).1.width * img.height +
          (img.width + img.height)) ∧
    ((convert_image env img none).1.width = img.width ∧
      (convert_image env img none).1.height = img.height) := by
  obtain ⟨hwdim, hhdim⟩ := convert_image_some_dims env img tw th
  obtain ⟨s1, s2, s3, s4, s5, s6⟩ :=
    thumbnailSize_spec img.width img.height tw th hw hh htw hth
  rw [hwdim, hhdim]
  exact ⟨⟨s1, s2⟩, ⟨s3, s4⟩, ⟨s5, s6⟩, convert_image_none_dims env img⟩

/-! ## Alpha handling in `convert_image` -/

/-- A concrete environment used to exercise the pipeline on closed inputs.
The transport always returns the single byte `7`; the decoder yields a 1x1
RGB image whose red channel carries the first byte of its input; the encoder
records width, height and the red channel; the digest is the hex-coded byte
count.  The decode-encode round trip is lossy, as a JPEG codec's is. -/
def envFix : Env :=
  { fetch := fun _ => Except.ok [7]
    decode := fun bs => Except.ok
      { format := some "JPEG", mode := "RGB", width := 1, height := 1,
        px := fun _ _ => (bs.headD 0, 0, 0, 255) }
    encodeJPEG := fun im => [im.width, im.height, (im.px 0 0).1]
    md5 := fun bs => toHexFixed bs.length 4 }

/-- An environment whose transport always fails and whose decoder rejects
everything. -/
def envErr : Env :=
  { fetch := fun _ => Except.error (PyErr.transportError "connection refused")
    decode := fun _ => Except.error (PyErr.decodeError "cannot identify image")
    encodeJPEG := fun _ => []
    md5 := fun _ => "" }

/-- The downloader configuration used for the closed runs: one configured
50x50 thumbnail named `small`. -/
def cfgFix : Cfg :=
  { store_path := "store", thumbs_size := [("small", 50, 50)] }

/-- The empty starting state. -/
def st0 : DState :=
  { fs := [], fetchCount := 0, sleepCount := 0 }

/-- A fully transparent RGBA image whose container format is WEBP, not PNG. -/
def rgbaNonPng : Img :=
  { format := some "WEBP", mode := "RGBA", width := 1, height := 1,
    px := fun _ _ => (10, 20, 30, 0) }

/-- A fully transparent RGBA image of PNG format. -/
def rgbaPng : Img :=
  { format := some "PNG", mode := "RGBA", width := 1, height := 1,
    px := fun _ _ => (10, 20, 30, 0) }

/-- C5 counterexample: `convert_image` composites over white only when the
format is PNG and the mode is RGBA (or the mode is palette).  This RGBA
image has an alpha channel, with a fully transparent pixel, yet because its
format is WEBP it is converted by the plain `convert('RGB')` branch: the
pixel keeps its colour channels `(10, 20, 30)` instead of becoming white. -/
theorem convert_image_alpha_not_flattened :
    rgbaNonPng.mode = "RGBA" ∧ (rgbaNonPng.px 0 0).2.2.2 = 0 ∧
    (convert_image envFix rgbaNonPng none).1.px 0 0 = (10, 20, 30, 255) ∧
    ¬ (convert_image envFix rgbaNonPng none).1.px 0 0 = (255, 255, 255, 255) := by
  refine ⟨rfl, rfl, by decide, by decide⟩

/-- C5 amended: for sources whose format is PNG with RGBA mode — and for
palette-mode sources — normalization composites them over an opaque white
background of the same dimensions and converts to 3-channel RGB, so their
transparent pixels become white in the persisted result.  (An RGBA source
of any other container format is converted to RGB directly, without the
white compositing; see the counterexample.) -/
theorem convert_image_png_alpha_flattened (env : Env) (img : Img)
    (x y r g b : Nat)
    (halpha : img.format = some "PNG" ∧ img.mode = "RGBA" ∨ img.mode = "P")
    (hpx : img.px x y = (r, g, b, 0)) :
    (convert_image env img none).1.mode = "RGB" ∧
    (convert_image env img none).1.width = img.width ∧
    (convert_image env img none).1.height = img.height ∧
    (convert_image env img none).1.px x y = (255, 255, 255, 255) := by
  rcases halpha with ⟨hf, hm⟩ | hm
  · simp [convert_image, hf, hm, pasteOverWhite, hpx, blendWhite]
  · simp [convert_image, hm, pasteOverWhite, convertRGBA, hpx, blendWhite]

/-- Witness for the amended C5 theorem at a concrete transparent PNG. -/
theorem convert_image_png_alpha_flattened_witness :
    (convert_image envFix rgbaPng none).1.mode = "RGB" ∧
    (convert_image envFix rgbaPng none).1.width = rgbaPng.width ∧
    (convert_image envFix rgbaPng none).1.height = rgbaPng.height ∧
    (convert_image envFix rgbaPng none).1.px 0 0 = (255, 255, 255, 255) :=
  convert_image_png_alpha_flattened envFix rgbaPng 0 0 10 20 30
    (Or.inl ⟨rfl, rfl⟩) rfl

/-! ## Which image a thumbnail is generated from -/

/-- Fresh-fetch route: when the full image is missing, every produced
thumbnail's bytes are the encoding of the originally decoded source image
(held in memory), resized to that thumbnail's target size. -/
theorem download_image_thumb_from_fresh (env : Env) (cfg : Cfg) (st : DState)
    (url : String) (content : Bytes) (orig : Img) (tid : String) (tw th : Nat)
    (hpe : st.fs.pathExists (file_path cfg.store_path url) = false)
    (hfetch : env.fetch url = Except.ok content)
    (hdecode : env.decode content = Except.ok orig)
    (hmem : (tid, tw, th) ∈ cfg.thumbs_size)
    (hnodup : (cfg.thumbs_size.map Prod.fst).Nodup)
    (hmiss : st.fs.pathExists (thumb_path cfg.store_path url tid) = false) :
    (download_image env cfg st url false).1.fs.read
        (thumb_path cfg.store_path url tid) =
      some (convert_image env orig (some (tw, th))).2 := by
  have hfs : fetchStep env st url false (file_path cfg.store_path url) = ({ fs := st.fs.write (file_path cfg.store_path url) ((convert_image env orig none).2), fetchCount := st.fetchCount + 1, sleepCount := st.sleepCount + 1 }, Except.ok (some orig)) := by
    simp [fetchStep, hpe, hfetch, hdecode]
  have hmiss2 : ({ fs := st.fs.write (file_path cfg.store_path url) ((convert_image env orig none).2), fetchCount := st.fetchCount + 1, sleepCount := st.sleepCount + 1 } : DState).fs.pathExists (thumb_path cfg.store_path url tid) = false := by
    rw [FS.pathExists_write_ne _ _ _ _
      (Ne.symm (file_path_ne_thumb_path cfg.store_path url url tid))]
    exact hmiss
  have hb := thumbLoop_bytes env cfg url (file_path cfg.store_path url)
    [] orig tid tw th cfg.thumbs_size _ (some orig) (Or.inl rfl)
    hmem hnodup hmiss2
  simp only [download_image, hfs]
  rcases hloop : thumbLoop env cfg url false (file_path cfg.store_path url) cfg.thumbs_size { fs := st.fs.write (file_path cfg.store_path url) ((convert_image env orig none).2), fetchCount := st.fetchCount + 1, sleepCount := st.sleepCount + 1 } (some orig) with ⟨st2, r2⟩
  rw [hloop] at hb
  cases r2 <;> simpa using hb

/-- Cache route: when the full image is already on disk, a produced
thumbnail's bytes are the encoding of the image decoded from the persisted
(lossily re-encoded) full-image file, resized to the target size. -/
theorem download_image_thumb_from_cache (env : Env) (cfg : Cfg) (st : DState)
    (url : String) (b : Bytes) (im : Img) (tid : String) (tw th : Nat)
    (hread : st.fs.read (file_path cfg.store_path url) = some b)
    (hdecode : env.decode b = Except.ok im)
    (hmem : (tid, tw, th) ∈ cfg.thumbs_size)
    (hnodup : (cfg.thumbs_size.map Prod.fst).Nodup)
    (hmiss : st.fs.pathExists (thumb_path cfg.store_path url tid) = false) :
    (download_image env cfg st url false).1.fs.read
        (thumb_path cfg.store_path url tid) =
      some (convert_image env im (some (tw, th))).2 := by
  have hpe : st.fs.pathExists (file_path cfg.store_path url) = true := by
    simp [FS.pathExists, hread]
  have hfs := fetchStep_cached env st url (file_path cfg.store_path url) hpe
  have hb := thumbLoop_bytes env cfg url (file_path cfg.store_path url)
    b im tid tw th cfg.thumbs_size st none (Or.inr ⟨rfl, hread, hdecode⟩)
    hmem hnodup hmiss
  simp only [download_image, hfs]
  rcases hloop : thumbLoop env cfg url false (file_path cfg.store_path url)
      cfg.thumbs_size st none with ⟨st2, r2⟩
  rw [hloop] at hb
  cases r2 <;> simpa using hb

/-- The state left by a caching run: the full-image file is present with the
bytes the fresh run would persist, but no thumbnail yet. -/
def stCache : DState :=
  { fs := FS.write [] (file_path "store" "u") [1, 1, 7],
    fetchCount := 0, sleepCount := 0 }

/-- The image `envFix` decodes from the persisted full-image bytes
`[1, 1, 7]` — the round trip has moved the red channel from 7 to 1. -/
def imgCache : Img :=
  { format := some "JPEG", mode := "RGB", width := 1, height := 1,
    px := fun _ _ => (1, 0, 0, 255) }

/-- The image `envFix` decodes from the fetched body `[7]`. -/
def imgFresh : Img :=
  { format := some "JPEG", mode := "RGB", width := 1, height := 1,
    px := fun _ _ => (7, 0, 0, 255) }

/-- C9: the input a thumbnail is generated from depends on whether the full
image was fetched during the current invocation.  (i) When freshly fetched,
every produced thumbnail's bytes are the encoding of the originally decoded
source image, resized.  (ii) When the full image already existed on disk,
the produced thumbnail's bytes are the encoding of the image decoded from
the persisted (lossily re-encoded) full-image file, resized.  (iii) For some
source image the two routes produce different thumbnail bytes, exhibited
under `envFix`, whose decode-encode round trip is lossy. -/
theorem thumbnail_source_depends_on_route :
    (∀ (env : Env) (cfg : Cfg) (st : DState) (url : String) (content : Bytes)
        (orig : Img) (tid : String) (tw th : Nat),
      st.fs.pathExists (file_path cfg.store_path url) = false →
      env.fetch url = Except.ok content →
      env.decode content = Except.ok orig →
      (tid, tw, th) ∈ cfg.thumbs_size →
      (cfg.thumbs_size.map Prod.fst).Nodup →
      st.fs.pathExists (thumb_path cfg.store_path url tid) = false →
      (download_image env cfg st url false).1.fs.read
          (thumb_path cfg.store_path url tid) =
        some (convert_image env orig (some (tw, th))).2) ∧
    (∀ (env : Env) (cfg : Cfg) (st : DState) (url : String) (b : Bytes)
        (im : Img) (tid : String) (tw th : Nat),
      st.fs.read (file_path cfg.store_path url) = some b →
      env.decode b = Except.ok im →
      (tid, tw, th) ∈ cfg.thumbs_size →
      (cfg.thumbs_size.map Prod.fst).Nodup →
      st.fs.pathExists (thumb_path cfg.store_path url tid) = false →
      (download_image env cfg st url false).1.fs.read
          (thumb_path cfg.store_path url tid) =
        some (convert_image env im (some (tw, th))).2) ∧
    (download_image envFix cfgFix st0 "u" false).1.fs.read
        (thumb_path "store" "u" "small") ≠
      (download_image envFix cfgFix stCache "u" false).1.fs.read
        (thumb_path "store" "u" "small") := by
  refine ⟨download_image_thumb_from_fresh, download_image_thumb_from_cache, ?_⟩
  have h1 := download_image_thumb_from_fresh envFix cfgFix st0 "u" [7] imgFresh
    "small" 50 50 rfl rfl rfl (by decide) (by decide) rfl
  have h2 := download_image_thumb_from_cache envFix cfgFix stCache "u"
    [1, 1, 7] imgCache "small" 50 50
    (FS.read_write_self [] (file_path "store" "u") [1, 1, 7]) rfl
    (by decide) (by decide) rfl
  show (download_image envFix cfgFix st0 "u" false).1.fs.read
      (thumb_path cfgFix.store_path "u" "small") ≠
    (download_image envFix cfgFix stCache "u" false).1.fs.read
      (thumb_path cfgFix.store_path "u" "small")
  rw [h1, h2]
  decide

/-- Witness for the two route characterizations of C9 at concrete inputs:
the fresh route encodes the fetched image (red channel 7), the cache route
encodes the decoded persisted file (red channel 1). -/
theorem thumbnail_source_depends_on_route_witness :
    (download_image envFix cfgFix st0 "u" false).1.fs.read
        (thumb_path "store" "u" "small") =
      some (convert_image envFix imgFresh (some (50, 50))).2 ∧
    (download_image envFix cfgFix stCache "u" false).1.fs.read
        (thumb_path "store" "u" "small") =
      some (convert_image envFix imgCache (some (50, 50))).2 :=
  ⟨thumbnail_source_depends_on_route.1 envFix cfgFix st0 "u" [7] imgFresh
      "small" 50 50 rfl rfl rfl (by decide) (by decide) rfl,
    thumbnail_source_depends_on_route.2.1 envFix cfgFix stCache "u" [1, 1, 7]
      imgCache "small" 50 50
      (FS.read_write_self [] (file_path "store" "u") [1, 1, 7]) rfl
      (by decide) (by decide) rfl⟩

/-! ## A fully evaluated single-item run, and the per-claim witnesses -/

/-- The state after a successful fresh run of `download_image envFix cfgFix
st0 "u" false`: full image and the one thumbnail persisted, one fetch, one
pacing sleep. -/
def stDone : DState :=
  { fs := FS.write (FS.write [] (file_path "store" "u") [1, 1, 7])
      (thumb_path "store" "u" "small") [1, 1, 7],
    fetchCount := 1, sleepCount := 1 }

/-- Concrete evaluation of a fresh single-item run under `envFix`: the full
image bytes `[1, 1, 7]` and the thumbnail are persisted, and the digest of
the stored bytes (three bytes, hex `0003`) is returned. -/
theorem download_image_envFix_run :
    download_image envFix cfgFix st0 "u" false = (stDone, Except.ok "0003") := by
  have hfs : fetchStep envFix st0 "u" false (file_path "store" "u") =
      ({ fs := FS.write [] (file_path "store" "u") [1, 1, 7],
         fetchCount := 1, sleepCount := 1 }, Except.ok (some imgFresh)) := rfl
  have hloop : thumbLoop envFix cfgFix "u" false (file_path "store" "u")
      cfgFix.thumbs_size
      { fs := FS.write [] (file_path "store" "u") [1, 1, 7],
        fetchCount := 1, sleepCount := 1 } (some imgFresh) =
      (stDone, Except.ok ()) := rfl
  have hread : FS.read stDone.fs (file_path "store" "u") = some [1, 1, 7] := by
    show FS.read (FS.write (FS.write [] (file_path "store" "u") [1, 1, 7])
      (thumb_path "store" "u" "small") [1, 1, 7]) (file_path "store" "u") =
      some [1, 1, 7]
    rw [FS.read_write_ne _ _ _ _ (file_path_ne_thumb_path "store" "u" "u" "small")]
    exact FS.read_write_self _ _ _
  have hmd5 : md5sum envFix stDone.fs (file_path "store" "u") =
      Except.ok "0003" := by
    simp [md5sum, hread]
    rfl
  have hsp : cfgFix.store_path = "store" := rfl
  simp only [download_image, hsp, hfs, hloop]
  rw [hmd5]

/-- Witness for C2 at concrete inputs: after the successful fresh run, a
second run returns the same checksum from the same state, with no fetch and
no pacing sleep. -/
theorem download_image_idempotent_witness :
    download_image envFix cfgFix stDone "u" false = (stDone, Except.ok "0003") ∧
    (download_image envFix cfgFix stDone "u" false).1.fetchCount =
      stDone.fetchCount ∧
    (download_image envFix cfgFix stDone "u" false).1.sleepCount =
      stDone.sleepCount :=
  download_image_idempotent envFix cfgFix st0 "u" stDone "0003"
    download_image_envFix_run

/-- Witness for C4 at concrete inputs: the returned checksum `0003` is the
digest of the bytes on disk at the full-image path after the run. -/
theorem checksum_reflects_disk_witness :
    ∃ b, stDone.fs.read (file_path cfgFix.store_path "u") = some b ∧
      "0003" = envFix.md5 b :=
  checksum_reflects_disk envFix cfgFix st0 "u" false stDone "0003"
    download_image_envFix_run

/-- Witness for C7 at concrete inputs: with the full image on disk and the
thumbnail missing, the run produces the thumbnail, fetches nothing, sleeps
nothing, and returns the checksum of the persisted full image. -/
theorem thumbnail_regenerated_without_fetch_witness :
    (download_image envFix cfgFix stCache "u" false).1.fs.pathExists
        (thumb_path cfgFix.store_path "u" "small") = true ∧
    (download_image envFix cfgFix stCache "u" false).1.fetchCount =
      stCache.fetchCount ∧
    (download_image envFix cfgFix stCache "u" false).1.sleepCount =
      stCache.sleepCount ∧
    (download_image envFix cfgFix stCache "u" false).2 =
      Except.ok (envFix.md5 [1, 1, 7]) :=
  thumbnail_regenerated_without_fetch envFix cfgFix stCache "u" "small" 50 50
    [1, 1, 7] imgCache (by decide)
    (FS.read_write_self [] (file_path "store" "u") [1, 1, 7]) rfl rfl

/-- Witness for C8 at concrete inputs: under a transport that refuses the
connection, the single-identifier call surfaces the transport error. -/
theorem single_call_propagates_error_witness :
    call envErr cfgFix st0 (Sum.inl "u") false =
      ((download_image envErr cfgFix st0 "u" false).1,
        (download_image envErr cfgFix st0 "u" false).2.map Sum.inl) ∧
    (call envErr cfgFix st0 (Sum.inl "u") false).2 =
      Except.error (PyErr.transportError "connection refused") :=
  ⟨(single_call_propagates_error envErr cfgFix st0 "u" false).1,
    (single_call_propagates_error envErr cfgFix st0 "u" false).2
      (PyErr.transportError "connection refused") rfl⟩

/-- A batch environment: the transport refuses exactly the identifier
`bad` and serves every other one. -/
def envBatch : Env :=
  { envFix with
    fetch := fun u =>
      if u = "bad" then Except.error (PyErr.transportError "timeout")
      else Except.ok [7] }

/-- Witness for C1 at concrete inputs: in the batch `["a", "bad", "c"]`
where only `bad` fails, every url is present in the result mapping, and the
entry of `bad` is exactly the recorded failure marker of its own run. -/
theorem download_batch_total_and_isolated_witness :
    ((lookupResult (download envBatch cfgFix st0 ["a", "bad", "c"] false).1
        "a").isSome = true ∧
      (lookupResult (download envBatch cfgFix st0 ["a", "bad", "c"] false).1
        "bad").isSome = true ∧
      (lookupResult (download envBatch cfgFix st0 ["a", "bad", "c"] false).1
        "c").isSome = true) ∧
    lookupResult (download envBatch cfgFix st0 ["a", "bad", "c"] false).1
        "bad" =
      some (resultSlot (download_image envBatch cfgFix
        (stateAfter envBatch cfgFix false ["a"] st0) "bad" false).2) :=
  ⟨⟨(download_batch_total_and_isolated envBatch cfgFix st0 false
        ["a", "bad", "c"]).1 "a" (by decide),
    (download_batch_total_and_isolated envBatch cfgFix st0 false
        ["a", "bad", "c"]).1 "bad" (by decide),
    (download_batch_total_and_isolated envBatch cfgFix st0 false
        ["a", "bad", "c"]).1 "c" (by decide)⟩,
    (download_batch_total_and_isolated envBatch cfgFix st0 false
        ["a", "bad", "c"]).2 ["a"] "bad" ["c"] rfl (by decide)⟩

/-- A 4x2 source image for the resize witness. -/
def imgWide : Img :=
  { format := none, mode := "RGB", width := 4, height := 2,
    px := fun _ _ => (5, 5, 5, 255) }

/-- Witness for C6 at concrete inputs: resizing the 4x2 image into a 2x2 box
fits, preserves aspect up to rounding, never upscales, and no size means no
resize. -/
theorem convert_image_resize_fits_witness :
    ((convert_image envFix imgWide (some (2, 2))).1.width ≤ 2 ∧
      (convert_image envFix imgWide (some (2, 2))).1.height ≤ 2) ∧
    ((convert_image envFix imgWide (some (2, 2))).1.width ≤ imgWide.width ∧
      (convert_image envFix imgWide (some (2, 2))).1.height ≤ imgWide.height) ∧
    ((convert_image envFix imgWide (some (2, 2))).1.width * imgWide.height ≤
        (convert_image envFix imgWide (some (2, 2))).1.height * imgWide.width +
          (imgWide.width + imgWide.height) ∧
      (convert_image envFix imgWide (some (2, 2))).1.height * imgWide.width ≤
        (convert_image envFix imgWide (some (2, 2))).1.width * imgWide.height +
          (imgWide.width + imgWide.height)) ∧
    ((convert_image envFix imgWide none).1.width = imgWide.width ∧
      (convert_image envFix imgWide none).1.height = imgWide.height) :=
  convert_image_resize_fits envFix imgWide 2 2 (by decide) (by decide)
    (by decide) (by decide)

/-- Witness for C10 at concrete inputs: with `thumbs = true` and a falsy
`thumbs_size`, the fallback is the boolean `THUMBS` flag; with
`thumbs = false`, the empty mapping. -/
theorem init_thumbs_size_fallback_witness :
    init_thumbs_size true none ⟨true, [("small", 50, 50)]⟩ =
      ThumbsSpec.flag true ∧
    init_thumbs_size false (some [("small", 50, 50)])
        ⟨true, [("small", 50, 50)]⟩ =
      ThumbsSpec.mapping [] :=
  ⟨(init_thumbs_size_fallback true none ⟨true, [("small", 50, 50)]⟩).1 rfl rfl,
    (init_thumbs_size_fallback false (some [("small", 50, 50)])
      ⟨true, [("small", 50, 50)]⟩).2 rfl⟩

end ImageDL
